import Mathlib

/-!
# Verification of the Todoist AI agent event core

Shallow embedding of the event intake, deduplication and per-task
conversation logic of the `todoist-ai-agent` repository, together with
proofs of the behavioural properties stated in its specification.

Modelling conventions:
* ISO timestamp strings (`added_at`, `posted_at`, `createdAt`,
  `lastActivityAt`, the poller's `lastPollTime`) are represented by their
  epoch value as a `Nat`; `new Date(s).getTime()` comparison of two ISO
  strings is exactly comparison of those values.
* `async` methods are represented as pure state-passing functions; the
  persisted conversation collection (`conversations.json`) is a map from
  task id to conversation.
* External collaborators are parameters: the Claude invocation is an
  `Except String String` (error message, or reply text), the tracker's
  `hasAiLabel` / `getTask` lookups are function arguments.
-/

namespace TodoistAgent

/-! ## Constants (src/src/utils/constants.ts) -/

/-- Source `CONSTANTS.AI_INDICATOR`: prefix added to all AI agent comments. -/
def AI_INDICATOR : String := "🤖 **AI Agent**"

/-- Source `CONSTANTS.ERROR_PREFIX`: prefix for error messages posted to Todoist. -/
def ERROR_PREFIX : String := "⚠️ AI agent error:"

/-- Source `CONSTANTS.AI_LABEL`: default Todoist label for AI tasks. -/
def AI_LABEL : String := "AI"

/-- Source `CONSTANTS.MAX_MESSAGES`, also the default of
`ConversationRepository.addMessage`'s `maxMessages` parameter. -/
def MAX_MESSAGES : Nat := 20

/-! ## Data model (src/src/types/index.ts) -/

/-- Message role: `'user' | 'assistant'`. -/
inductive Role where
  | user
  | assistant
deriving DecidableEq, Repr

instance : Inhabited Role := ⟨Role.user⟩

/-- Source `Message` from src/src/types/index.ts. -/
structure Message where
  role : Role
  content : String
deriving DecidableEq, Repr

instance : Inhabited Message := ⟨⟨Role.user, ""⟩⟩

/-- Source `Conversation` from src/src/types/index.ts (timestamps as epoch `Nat`). -/
structure Conversation where
  title : String
  messages : List Message
  createdAt : Nat
  lastActivityAt : Nat
deriving DecidableEq, Repr

/-- Source `TodoistTask` from src/src/types/index.ts (fields used by the core;
`added_at` as epoch `Nat`). -/
structure TodoistTask where
  id : String
  content : String
  description : Option String
  labels : Option (List String)
  added_at : Nat
deriving DecidableEq, Repr

/-- Source `TodoistComment` from src/src/types/index.ts (`posted_at` as epoch `Nat`). -/
structure TodoistComment where
  id : String
  task_id : String
  content : String
  posted_at : Nat
  posted_uid : String
deriving DecidableEq, Repr

/-! ## Conversation repository (src/src/repositories/conversation.repository.ts) -/

/-- JavaScript `Array.prototype.slice(start)` (single argument): for a
negative `start` the slice begins at `max(length + start, 0)`, otherwise at
`min(start, length)`.  Note `slice(-0)` is `slice(0)`, i.e. the whole array. -/
def jsSlice {α : Type} (l : List α) (start : Int) : List α :=
  if start < 0 then l.drop ((l.length + start).toNat)
  else l.drop start.toNat

/-- Source `ConversationRepository.addMessage`: append `{role, content}`, then if
the length exceeds `maxMessages`, keep `messages[0]` plus
`messages.slice(-(maxMessages - 1))`. -/
def addMessage (conversation : Conversation) (role : Role) (content : String)
    (maxMessages : Nat := 20) : Conversation :=
  let messages := conversation.messages ++ [{ role := role, content := content }]
  if messages.length ≤ maxMessages then
    { conversation with messages := messages }
  else
    let first := messages.headI
    let rest := jsSlice messages (-((maxMessages : Int) - 1))
    { conversation with messages := first :: rest }

/-- Source `ConversationRepository.createEmpty` (both timestamps stamped "now"). -/
def createEmpty (now : Nat) : Conversation :=
  { title := "", messages := [], createdAt := now, lastActivityAt := now }

/-- The persisted conversation collection: task id → conversation
(the `conversations.json` document, `Record<string, Conversation>`). -/
def Store : Type := String → Option Conversation

/-- Source `ConversationRepository.exists`: `taskId in data`. -/
def Store.existsConv (s : Store) (taskId : String) : Bool :=
  (s taskId).isSome

/-- Source `ConversationRepository.load`: the stored conversation, or a fresh empty
one (not persisted) if none exists. -/
def Store.load (s : Store) (taskId : String) (now : Nat) : Conversation :=
  (s taskId).getD (createEmpty now)

/-- Source `ConversationRepository.save`: overwrite the entry for `taskId`,
stamping `lastActivityAt` with the current time. -/
def Store.save (s : Store) (taskId : String) (conversation : Conversation)
    (now : Nat) : Store :=
  fun k => if k = taskId then some { conversation with lastActivityAt := now } else s k

/-- Source `ConversationRepository.cleanup`: `delete data[taskId]`; not an error if
absent. -/
def Store.cleanup (s : Store) (taskId : String) : Store :=
  fun k => if k = taskId then none else s k

/-- JavaScript `String.prototype.startsWith(pre)` (character-wise prefix
test on the string's character sequence). -/
def jsStartsWith (s pre : String) : Bool :=
  pre.data.isPrefixOf s.data

/-! ## Todoist service (src/src/services/todoist.service.ts) -/

/-- Body of the comment actually sent by `TodoistService.postComment`:
every posted comment is `` `${CONSTANTS.AI_INDICATOR}\n\n${content}` ``. -/
def aiComment (content : String) : String :=
  AI_INDICATOR ++ "\n\n" ++ content

/-! ## Task processor (src/src/services/task-processor.service.ts)

`ClaudeService.executePrompt` either resolves with a reply or rejects
(timeout / nonzero exit); it is modelled as an `Except String String`
argument.  Each processor method is a pure function from the stored
collection to the new collection together with the list of comment bodies
posted to the tracker, in order.  The `try`/`catch` in each method means
the function always returns normally (no failure is re-raised). -/

/-- The anchor text built by the processor:
`` `Task: ${task.content}\n${task.description || ''}`.trim() ``. -/
def anchorText (task : TodoistTask) : String :=
  ("Task: " ++ task.content ++ "\n" ++ task.description.getD "").trim

/-- Content of the comment posted by `TaskProcessorService.handleError`
(before `postComment` adds its own `AI_INDICATOR` prefix). -/
def errorBody (message : String) : String :=
  ERROR_PREFIX ++ " " ++ message ++ ". Retry by adding a comment."

/-- Source `TaskProcessorService.processNewTask`.  On the success path: load (or
freshly construct) the conversation, synthesize the anchor if it is empty,
invoke Claude, append its reply, save and post.  On Claude failure the
`catch` posts an error comment via `handleError` and nothing is saved. -/
def processNewTask (store : Store) (task : TodoistTask)
    (claude : Except String String) (now : Nat) : Store × List String :=
  let conv := store.load task.id now
  let conv :=
    if conv.messages.isEmpty then
      addMessage { conv with title := task.content, createdAt := now }
        Role.user (anchorText task) MAX_MESSAGES
    else conv
  match claude with
  | .ok response =>
      let conv := addMessage conv Role.assistant response MAX_MESSAGES
      (store.save task.id conv now, [aiComment response])
  | .error message => (store, [aiComment (errorBody message)])

/-- Source `TaskProcessorService.processComment` (with the `getTask` fetch
succeeding and returning `task`): synthesize the anchor if the loaded
conversation is empty, append the comment as a `user` message, invoke
Claude, append its reply, save and post.  On Claude failure the `catch`
posts an error comment and nothing is saved. -/
def processComment (store : Store) (task : TodoistTask) (comment : String)
    (claude : Except String String) (now : Nat) : Store × List String :=
  let conv := store.load task.id now
  let conv :=
    if conv.messages.isEmpty then
      addMessage { conv with title := task.content, createdAt := now }
        Role.user (anchorText task) MAX_MESSAGES
    else conv
  let conv := addMessage conv Role.user comment MAX_MESSAGES
  match claude with
  | .ok response =>
      let conv := addMessage conv Role.assistant response MAX_MESSAGES
      (store.save task.id conv now, [aiComment response])
  | .error message => (store, [aiComment (errorBody message)])

/-- The fixed closing notice of `TaskProcessorService.handleTaskCompletion`. -/
def closingNotice : String := "Task completed. Conversation history cleared."

/-- Source `TaskProcessorService.handleTaskCompletion`: post the closing notice if
the loaded conversation is non-empty, then `cleanup` the task id. -/
def handleTaskCompletion (store : Store) (taskId : String) (now : Nat) :
    Store × List String :=
  let conv := store.load taskId now
  let posts := if conv.messages.length > 0 then [aiComment closingNotice] else []
  (store.cleanup taskId, posts)

/-! ## Polling handler (src/src/handlers/polling.handler.ts) -/

/-- Source `MAX_PROCESSED_COMMENTS` field of `PollingHandler`. -/
def MAX_PROCESSED_COMMENTS : Nat := 10000

/-- The filter of `PollingHandler.checkForNewComments`: keep a comment iff
its id is not yet in the processed set and its text starts with neither
reserved marker.  The processed set is the `Set<string>` in insertion
order. -/
def newCommentFilter (processedComments : List String) (c : TodoistComment) : Bool :=
  !(processedComments.contains c.id) &&
  !(jsStartsWith c.content AI_INDICATOR) &&
  !(jsStartsWith c.content ERROR_PREFIX)

/-- Source `PollingHandler.addProcessedComment`: insert the id into the
`Set<string>`; when the size exceeds the ceiling, delete the first 1000
entries in insertion (FIFO) order.  The JS loop skips a falsy (empty
string) value, which therefore survives the eviction. -/
def addProcessedComment (processedComments : List String) (commentId : String) :
    List String :=
  let s :=
    if processedComments.contains commentId then processedComments
    else processedComments ++ [commentId]
  if s.length > MAX_PROCESSED_COMMENTS then
    ((s.take 1000).filter (fun v => v = "")) ++ s.drop 1000
  else s

/-- The `for` loop of `PollingHandler.checkForNewComments`: for each
comment, record its id as handled *first*, then invoke
`processor.processComment`.  `claudeFails id = true` means the downstream
processing of that comment rejects, which aborts the loop (the exception
propagates to `poll`'s per-task catch); the remaining comments are left
untouched.  Returns the updated processed set and the comments on which the
engine was invoked, in invocation order. -/
def runComments (claudeFails : String → Bool) :
    List String → List TodoistComment → List String × List TodoistComment
  | processed, [] => (processed, [])
  | processed, c :: cs =>
    let processed := addProcessedComment processed c.id
    if claudeFails c.id then (processed, [c])
    else
      let r := runComments claudeFails processed cs
      (r.1, c :: r.2)

/-- The sort of `PollingHandler.checkForNewComments`:
`newComments.sort((a, b) => posted_at(a) - posted_at(b))` — a stable sort
by ascending posted time (ECMAScript `Array.prototype.sort` is stable). -/
def sortByPostedAt (l : List TodoistComment) : List TodoistComment :=
  l.mergeSort (fun a b => a.posted_at ≤ b.posted_at)

/-- Source `PollingHandler.checkForNewComments` for one task, with the fetched
`comments` as input: filter, sort chronologically, then process each in
order (recording ids at emission time). -/
def checkForNewComments (claudeFails : String → Bool)
    (processedComments : List String) (comments : List TodoistComment) :
    List String × List TodoistComment :=
  let newComments := comments.filter (newCommentFilter processedComments)
  runComments claudeFails processedComments (sortByPostedAt newComments)

/-- The three mutually exclusive branches of `PollingHandler.processTask`. -/
inductive PollAction where
  | processNew
  | markSeen (conversation : Conversation)
  | checkComments
deriving DecidableEq, Repr

/-- Source `PollingHandler.processTask`: decide what to do with a fetched
AI-labeled task, given whether a conversation already exists and the
previous tick boundary `lastPollTime`.  `markSeen` performs only
`conversations.save` (no processor call); `processNew` calls
`processor.processNewTask`; `checkComments` proceeds to
`checkForNewComments`. -/
def processTask (alreadyProcessed : Bool) (lastPollTime : Nat)
    (task : TodoistTask) (now : Nat) : PollAction :=
  let isNewTask := lastPollTime < task.added_at
  if isNewTask && !alreadyProcessed then .processNew
  else if !isNewTask && !alreadyProcessed then
    .markSeen { title := task.content, messages := [],
                createdAt := task.added_at, lastActivityAt := now }
  else .checkComments

/-- Whether a `PollAction` can lead to an invocation of the assistant:
`processNew` invokes it directly, `checkComments` may invoke it for new
comments, `markSeen` only saves an empty conversation. -/
def PollAction.invokesAssistant : PollAction → Bool
  | .processNew => true
  | .markSeen _ => false
  | .checkComments => true

/-! ## Webhook handler (src/src/handlers/webhook.handler.ts) -/

/-- Source `WebhookEvent.event_name`. -/
inductive EventName where
  | itemAdded
  | itemUpdated
  | itemCompleted
  | noteAdded
deriving DecidableEq, Repr

/-- Source `WebhookEvent.event_data`. -/
structure WebhookEventData where
  id : Option String
  item_id : Option String
  content : Option String
  labels : Option (List String)
deriving DecidableEq, Repr

/-- The calls `WebhookHandler` can make into the engine. -/
inductive EngineCall where
  | newTask (task : TodoistTask)
  | comment (taskId : String) (content : String)
  | completion (taskId : String)
deriving DecidableEq, Repr

/-- Source `WebhookHandler.handleWebhook`: normalize a webhook delivery into at
most one engine call.  `hasAiLabel` is `TodoistService.hasAiLabel` (returns
`false` rather than raising on fetch failure), `existsConv` is
`conversations.exists`, `getTask` the tracker fetch (assumed to succeed). -/
def handleWebhook (hasAiLabel : String → Bool) (existsConv : String → Bool)
    (getTask : String → TodoistTask) (event_name : EventName)
    (event_data : WebhookEventData) : Option EngineCall :=
  match event_name with
  | .itemAdded =>
      let labels := event_data.labels.getD []
      if !(labels.contains AI_LABEL) then none
      else
        match event_data.id with
        | none => none
        | some id => some (.newTask (getTask id))
  | .itemUpdated =>
      let labels := event_data.labels.getD []
      if !(labels.contains AI_LABEL) then none
      else
        match event_data.id with
        | none => none
        | some id =>
            if existsConv id then none
            else some (.newTask (getTask id))
  | .noteAdded =>
      match event_data.item_id, event_data.content with
      | some taskId, some content =>
          if jsStartsWith content AI_INDICATOR then none
          else if jsStartsWith content ERROR_PREFIX then none
          else if !(hasAiLabel taskId) then none
          else some (.comment taskId content)
      | _, _ => none
  | .itemCompleted =>
      match event_data.id with
      | none => none
      | some id =>
          if !(hasAiLabel id) then none
          else some (.completion id)

/-! ## Interleaving of push and poll for one task (claim C1)

The scheduler serializes jobs, so an interleaving of push deliveries and
poll-tick discoveries for a single task is a list of atomic steps.  Each
step is the handling the source performs for that event kind when the task
carries the trigger label: `item:added` runs `processNewTask`
unconditionally, `item:updated` runs it only if no conversation exists
(webhook.handler.ts), and a poll tick follows `PollingHandler.processTask`
and then advances `lastPollTime` to the tick's start time.  Claude is
assumed to reply successfully (failure handling is modelled separately in
the `processComment`/`processNewTask` theorems), and the tick's
`checkComments` branch is a no-op for the conversation since the
interleaving contains no comment events. -/

/-- One serialized event observing the task's trigger label. -/
inductive AgentEvent where
  | pushCreated (response : String) (now : Nat)
  | pushRelabeled (response : String) (now : Nat)
  | pollTick (tickTime : Nat) (response : String) (now : Nat)
deriving DecidableEq, Repr

/-- State shared by the two adapters: the persisted conversation collection
and the poller's `lastPollTime`.  `anchorCount` is a ghost counter of how
many times the anchor message was created (i.e. how many `processNewTask`
runs found an empty conversation and synthesized the first user message). -/
structure AgentState where
  store : Store
  lastPollTime : Nat
  anchorCount : Nat

/-- 1 iff a `processNewTask` run at this state would synthesize the anchor
(the loaded conversation has no messages). -/
def anchorCreated (store : Store) (taskId : String) (now : Nat) : Nat :=
  if (store.load taskId now).messages.isEmpty then 1 else 0

/-- One serialized step of the system for the given task. -/
def stepEvent (task : TodoistTask) (s : AgentState) (e : AgentEvent) : AgentState :=
  match e with
  | .pushCreated response now =>
      { s with
        store := (processNewTask s.store task (.ok response) now).1,
        anchorCount := s.anchorCount + anchorCreated s.store task.id now }
  | .pushRelabeled response now =>
      if s.store.existsConv task.id then s
      else
        { s with
          store := (processNewTask s.store task (.ok response) now).1,
          anchorCount := s.anchorCount + anchorCreated s.store task.id now }
  | .pollTick tickTime response now =>
      match processTask (s.store.existsConv task.id) s.lastPollTime task now with
      | .processNew =>
          { store := (processNewTask s.store task (.ok response) now).1,
            lastPollTime := tickTime,
            anchorCount := s.anchorCount + anchorCreated s.store task.id now }
      | .markSeen conversation =>
          { store := s.store.save task.id conversation now,
            lastPollTime := tickTime,
            anchorCount := s.anchorCount }
      | .checkComments => { s with lastPollTime := tickTime }

/-- Run a whole interleaving from the initial state (empty collection,
`lastPollTime` at epoch). -/
def runEvents (task : TodoistTask) (es : List AgentEvent) : AgentState :=
  es.foldl (stepEvent task) { store := fun _ => none, lastPollTime := 0, anchorCount := 0 }

/-! ## Concrete fixtures used by witnesses and counterexamples -/

/-- A conversation record with no messages. -/
def convEmpty : Conversation :=
  { title := "", messages := [], createdAt := 0, lastActivityAt := 0 }

/-- A concrete AI-labeled task. -/
def sampleTask : TodoistTask :=
  { id := "123", content := "Test task", description := some "Do it",
    labels := some ["AI"], added_at := 3 }

/-- A store holding one anchored conversation for task "123". -/
def sampleStore : Store :=
  fun k =>
    if k = "123" then
      some { title := "Test task",
             messages := [{ role := Role.user, content := "anchor" }],
             createdAt := 1, lastActivityAt := 1 }
    else none

/-- Repeated application of `addMessage`, i.e. appending a whole sequence
of `(role, text)` pairs to a conversation. -/
def appendAll (conv : Conversation) (ms : List (Role × String))
    (maxMessages : Nat) : Conversation :=
  ms.foldl (fun c p => addMessage c p.1 p.2 maxMessages) conv

/-- View a `(role, text)` pair as the `Message` that `addMessage` appends. -/
def toMsg (p : Role × String) : Message :=
  { role := p.1, content := p.2 }

/-! ## Claim C10: addMessage is pure and only changes `messages` -/

/-- C10: `addMessage` never mutates its input — in this embedding it is a
pure function of the conversation (the source builds fresh objects with
spreads: `[...conversation.messages, {role, content}]` and
`{...conversation, messages}`) — and the returned conversation differs from
the input only in its `messages` field: `title`, `createdAt` and
`lastActivityAt` are unchanged, for every conversation, role, content and
bound. -/
theorem addMessage_frame (conv : Conversation) (role : Role) (content : String)
    (maxMessages : Nat) :
    (addMessage conv role content maxMessages).title = conv.title ∧
    (addMessage conv role content maxMessages).createdAt = conv.createdAt ∧
    (addMessage conv role content maxMessages).lastActivityAt = conv.lastActivityAt := by
  unfold addMessage
  dsimp only
  split <;> exact ⟨rfl, rfl, rfl⟩

/-! ## Claim C5: old tasks are marked seen without invoking the assistant -/

/-- C5: a trigger-labeled task the poller discovers with no existing
conversation, whose creation time predates the previous tick boundary
(`lastPollTime`), takes the mark-seen branch of
`PollingHandler.processTask`: it saves an empty conversation whose
`createdAt` is the task's own creation time, and the branch never invokes
the assistant (it is not `processNew`, and does not reach the comment
loop either). -/
theorem old_task_marked_seen (task : TodoistTask) (lastPollTime now : Nat)
    (hold : task.added_at < lastPollTime) :
    processTask false lastPollTime task now =
      PollAction.markSeen
        { title := task.content, messages := [],
          createdAt := task.added_at, lastActivityAt := now } ∧
    (processTask false lastPollTime task now).invokesAssistant = false := by
  have hnot : ¬ lastPollTime < task.added_at := by omega
  refine ⟨?_, ?_⟩ <;>
    simp [processTask, PollAction.invokesAssistant, hnot]

/-- Witness for C5 at a concrete old task. -/
theorem old_task_marked_seen_witness :
    processTask false 5 { sampleTask with added_at := 2 } 9 =
      PollAction.markSeen
        { title := sampleTask.content, messages := [],
          createdAt := 2, lastActivityAt := 9 } ∧
    (processTask false 5 { sampleTask with added_at := 2 } 9).invokesAssistant = false :=
  old_task_marked_seen { sampleTask with added_at := 2 } 5 9 (by decide)

/-! ## Claim C6: behaviour when the assistant invocation raises -/

/-- C6 counterexample: the claim says the conversation is left with the
user message appended.  In the source, `conversations.save` is only reached
after `executePrompt` resolves, so when Claude rejects nothing is
persisted: with a stored conversation `[anchor]` and an incoming comment
"hello", the store still maps "123" to `[anchor]` — the user message
"hello" was not appended — while the error reply is posted. -/
theorem assistant_failure_counterexample :
    (processComment sampleStore sampleTask "hello" (.error "Timeout") 9).1 "123" =
      some { title := "Test task",
             messages := [{ role := Role.user, content := "anchor" }],
             createdAt := 1, lastActivityAt := 1 } ∧
    (processComment sampleStore sampleTask "hello" (.error "Timeout") 9).1 "123" ≠
      some { title := "Test task",
             messages := [{ role := Role.user, content := "anchor" },
                          { role := Role.user, content := "hello" }],
             createdAt := 1, lastActivityAt := 1 } ∧
    (processComment sampleStore sampleTask "hello" (.error "Timeout") 9).2 =
      [aiComment (errorBody "Timeout")] := by
  refine ⟨rfl, ?_, rfl⟩
  intro h
  simp [processComment, sampleStore] at h

/-- C6 (amended): if the assistant invocation raises while the engine
processes a task or comment event, the engine appends no assistant message
and persists nothing — the stored collection is left unchanged, so the
user message is not persisted either — an error reply (error marker plus
diagnostic and retry hint, sent through `postComment`) is posted to the
tracker, and the failure is not re-raised to the caller: the processor's
`catch` makes both methods return normally, so other queued events keep
processing. -/
theorem assistant_failure_amended (store : Store) (task : TodoistTask)
    (comment message : String) (now : Nat) :
    (processComment store task comment (.error message) now).1 = store ∧
    (processComment store task comment (.error message) now).2 =
      [aiComment (errorBody message)] ∧
    (processNewTask store task (.error message) now).1 = store ∧
    (processNewTask store task (.error message) now).2 =
      [aiComment (errorBody message)] :=
  ⟨rfl, rfl, rfl, rfl⟩

/-! ## Claim C7: completion cleanup -/

/-- C7: handling completion of a task whose stored conversation is
non-empty posts exactly one closing notice and leaves
`exists(taskId) = false`; handling completion of a task with no stored
conversation posts nothing and the cleanup is a no-op on the collection
rather than an error. -/
theorem completion_cleanup (store : Store) (taskId : String) (now : Nat) :
    (∀ conv, store taskId = some conv → conv.messages ≠ [] →
      (handleTaskCompletion store taskId now).2 = [aiComment closingNotice] ∧
      ((handleTaskCompletion store taskId now).1.existsConv taskId) = false) ∧
    (store taskId = none →
      (handleTaskCompletion store taskId now).2 = [] ∧
      (handleTaskCompletion store taskId now).1 = store) := by
  constructor
  · intro conv hconv hne
    have hpos : 0 < conv.messages.length := List.length_pos.mpr hne
    constructor
    · simp [handleTaskCompletion, Store.load, hconv, hpos]
    · simp [handleTaskCompletion, Store.cleanup, Store.existsConv]
  · intro hnone
    constructor
    · simp [handleTaskCompletion, Store.load, hnone, createEmpty]
    · funext k
      by_cases hk : k = taskId
      · simp [handleTaskCompletion, Store.cleanup, hk, hnone.symm]
      · simp [handleTaskCompletion, Store.cleanup, hk]

/-- Witness for C7: a non-empty conversation posts the closing notice and
is removed, and an absent conversation posts nothing and leaves the empty
store untouched. -/
theorem completion_cleanup_witness :
    ((handleTaskCompletion sampleStore "123" 9).2 = [aiComment closingNotice] ∧
     ((handleTaskCompletion sampleStore "123" 9).1.existsConv "123") = false) ∧
    ((handleTaskCompletion (fun _ => none) "999" 9).2 = [] ∧
     (handleTaskCompletion (fun _ => none) "999" 9).1 = (fun _ => none)) :=
  ⟨(completion_cleanup sampleStore "123" 9).1
      { title := "Test task",
        messages := [{ role := Role.user, content := "anchor" }],
        createdAt := 1, lastActivityAt := 1 }
      rfl (by decide),
   (completion_cleanup (fun _ => none) "999" 9).2 rfl⟩

/-! ## Claim C8: shapes of posted comments -/

/-- C8 counterexample: the claim says error replies are prefixed with the
error marker.  In the source, `handleError` sends its text through
`TodoistService.postComment`, which prefixes *every* comment with the
assistant marker, so the concrete error comment posted on a Claude failure
starts with `AI_INDICATOR`, not with `ERROR_PREFIX`. -/
theorem error_marker_counterexample :
    (processComment sampleStore sampleTask "hi" (.error "Timeout") 9).2 =
      [aiComment (errorBody "Timeout")] ∧
    jsStartsWith (aiComment (errorBody "Timeout")) ERROR_PREFIX = false ∧
    jsStartsWith (aiComment (errorBody "Timeout")) AI_INDICATOR = true := by
  refine ⟨rfl, ?_, ?_⟩ <;> decide

/-- C8 (amended): every comment the engine posts to the tracker is
prefixed with the fixed visible assistant marker (added by `postComment`),
and has one of exactly two shapes: the assistant marker followed by plain
text (the assistant's reply, or the fixed closing notice), or the
assistant marker followed by the error marker plus a short diagnostic and
the retry hint — the error marker appears after the assistant marker, not
at the start of the comment. -/
theorem posted_comment_shapes (store : Store) (task : TodoistTask)
    (comment : String) (claude : Except String String) (now : Nat) (p : String)
    (hp : p ∈ (processNewTask store task claude now).2 ++
              (processComment store task comment claude now).2 ++
              (handleTaskCompletion store task.id now).2) :
    ∃ body, p = AI_INDICATOR ++ "\n\n" ++ body ∧
      ((∃ r, claude = .ok r ∧ body = r) ∨ body = closingNotice ∨
       (∃ m, claude = .error m ∧ body = errorBody m)) := by
  have hcompl : (handleTaskCompletion store task.id now).2 = [aiComment closingNotice] ∨
      (handleTaskCompletion store task.id now).2 = [] := by
    unfold handleTaskCompletion
    dsimp only
    split
    · exact Or.inl rfl
    · exact Or.inr rfl
  cases claude with
  | ok r =>
      simp only [processNewTask, processComment, List.mem_append] at hp
      rcases hp with (h | h) | h
      · exact ⟨r, by simpa [aiComment] using h, Or.inl ⟨r, rfl, rfl⟩⟩
      · exact ⟨r, by simpa [aiComment] using h, Or.inl ⟨r, rfl, rfl⟩⟩
      · rcases hcompl with hc | hc
        · rw [hc] at h
          exact ⟨closingNotice, by simpa [aiComment] using h, Or.inr (Or.inl rfl)⟩
        · rw [hc] at h
          simp at h
  | error m =>
      simp only [processNewTask, processComment, List.mem_append] at hp
      rcases hp with (h | h) | h
      · exact ⟨errorBody m, by simpa [aiComment] using h, Or.inr (Or.inr ⟨m, rfl, rfl⟩)⟩
      · exact ⟨errorBody m, by simpa [aiComment] using h, Or.inr (Or.inr ⟨m, rfl, rfl⟩)⟩
      · rcases hcompl with hc | hc
        · rw [hc] at h
          exact ⟨closingNotice, by simpa [aiComment] using h, Or.inr (Or.inl rfl)⟩
        · rw [hc] at h
          simp at h

/-- Witness for C8 at a concrete successful reply. -/
theorem posted_comment_shapes_witness :
    ∃ body, aiComment "Hi" = AI_INDICATOR ++ "\n\n" ++ body ∧
      ((∃ r, (Except.ok "Hi" : Except String String) = .ok r ∧ body = r) ∨
       body = closingNotice ∨
       (∃ m, (Except.ok "Hi" : Except String String) = .error m ∧ body = errorBody m)) :=
  posted_comment_shapes sampleStore sampleTask "ask" (.ok "Hi") 9 (aiComment "Hi")
    (by simp [processNewTask, processComment])

/-! ## Shared lemmas about the poll comment loop -/

/-- The comments on which the loop invokes the engine form a prefix of the
loop's input: a processing failure aborts the loop after the failing
comment, leaving the rest untouched. -/
theorem runComments_leading (f : String → Bool) (l : List TodoistComment) :
    ∀ S, (runComments f S l).2 <+: l := by
  induction l with
  | nil => intro S; simp [runComments]
  | cons c cs ih =>
      intro S
      simp only [runComments]
      split
      · exact ⟨cs, rfl⟩
      · obtain ⟨t, ht⟩ := ih (addProcessedComment S c.id)
        exact ⟨t, by simp [ht]⟩

/-- When no downstream processing fails, the loop invokes the engine on its
whole input. -/
theorem runComments_no_failure (f : String → Bool) (hf : ∀ id, f id = false)
    (l : List TodoistComment) : ∀ S, (runComments f S l).2 = l := by
  induction l with
  | nil => intro S; simp [runComments]
  | cons c cs ih => intro S; simp [runComments, hf, ih]

/-- The chronological sort produces a list that is pairwise ascending in
`posted_at`. -/
theorem sortByPostedAt_pairwise (l : List TodoistComment) :
    (sortByPostedAt l).Pairwise (fun a b => a.posted_at ≤ b.posted_at) := by
  have h := @List.sorted_mergeSort TodoistComment
    (fun a b : TodoistComment => a.posted_at ≤ b.posted_at)
    (fun a b c hab hbc => by
      simp only [decide_eq_true_eq] at *; omega)
    (fun a b => by
      simp only [Bool.or_eq_true, decide_eq_true_eq]; omega)
    l
  exact h.imp (fun hab => by simpa using hab)

/-! ## Claim C3: anti-loop guard -/

/-- C3: a comment whose text starts with the reserved assistant-reply
marker or the reserved error marker is never turned into a
comment-processing invocation: the webhook handler's `note:added` branch
returns without calling the processor, and the poll adapter's filter keeps
any such comment out of the processing loop for every handled-set, fetch
result and failure pattern. -/
theorem anti_loop_guard (hasAiLabel existsConv : String → Bool)
    (getTask : String → TodoistTask) (d : WebhookEventData) (c : String)
    (hd : d.content = some c)
    (hm : jsStartsWith c AI_INDICATOR = true ∨ jsStartsWith c ERROR_PREFIX = true) :
    handleWebhook hasAiLabel existsConv getTask .noteAdded d = none ∧
    ∀ (claudeFails : String → Bool) (S : List String)
      (comments : List TodoistComment) (cm : TodoistComment),
      cm ∈ comments → cm.content = c →
      cm ∉ (checkForNewComments claudeFails S comments).2 := by
  constructor
  · cases hi : d.item_id with
    | none => simp [handleWebhook, hi]
    | some taskId =>
        rcases hm with hm | hm <;> simp [handleWebhook, hi, hd, hm]
  · intro claudeFails S comments cm hmem hcontent hinv
    have hsorted : cm ∈ sortByPostedAt (comments.filter (newCommentFilter S)) :=
      (runComments_leading claudeFails _ S).sublist.mem hinv
    have hfilter : cm ∈ comments.filter (newCommentFilter S) := by
      simpa [sortByPostedAt] using hsorted
    have hpred := List.of_mem_filter hfilter
    rcases hm with hm | hm <;>
      simp [newCommentFilter, hcontent, hm] at hpred

/-- A comment whose text is one of the bot's own replies. -/
def botComment : TodoistComment :=
  { id := "c9", task_id := "123", content := aiComment "done", posted_at := 7,
    posted_uid := "u" }

/-- A `note:added` payload carrying the bot comment's text. -/
def botNoteData : WebhookEventData :=
  { id := none, item_id := some "123", content := some (aiComment "done"),
    labels := none }

/-- Witness for C3 at a concrete marker-prefixed comment. -/
theorem anti_loop_guard_witness :
    handleWebhook (fun _ => true) (fun _ => false) (fun _ => sampleTask)
      .noteAdded botNoteData = none ∧
    botComment ∉ (checkForNewComments (fun _ => false) [] [botComment]).2 :=
  ⟨(anti_loop_guard (fun _ => true) (fun _ => false) (fun _ => sampleTask)
      botNoteData (aiComment "done") rfl (Or.inl (by decide))).1,
   (anti_loop_guard (fun _ => true) (fun _ => false) (fun _ => sampleTask)
      botNoteData (aiComment "done") rfl (Or.inl (by decide))).2
     (fun _ => false) [] [botComment] botComment (List.Mem.head _) rfl⟩

/-! ## Claim C9: comments are processed in ascending posted_at order -/

/-- C9: the comments on which the poll adapter invokes the engine are in
ascending `posted_at` order regardless of the order the fetch returned
them — strictly ascending when the timestamps are distinct — and when no
processing fails the engine is invoked on exactly the filtered comments in
sorted order. -/
theorem poll_comments_ascending (claudeFails : String → Bool) (S : List String)
    (comments : List TodoistComment) :
    ((checkForNewComments claudeFails S comments).2.map TodoistComment.posted_at).Sorted (· ≤ ·) ∧
    ((comments.map TodoistComment.posted_at).Nodup →
      ((checkForNewComments claudeFails S comments).2.map TodoistComment.posted_at).Sorted (· < ·)) ∧
    ((∀ id, claudeFails id = false) →
      (checkForNewComments claudeFails S comments).2 =
        sortByPostedAt (comments.filter (newCommentFilter S))) := by
  have hpref : (checkForNewComments claudeFails S comments).2 <+:
      sortByPostedAt (comments.filter (newCommentFilter S)) :=
    runComments_leading claudeFails _ S
  have hle : ((checkForNewComments claudeFails S comments).2).Pairwise
      (fun a b => a.posted_at ≤ b.posted_at) :=
    (sortByPostedAt_pairwise _).sublist hpref.sublist
  refine ⟨?_, ?_, ?_⟩
  · exact (List.pairwise_map).mpr hle
  · intro hnd
    have h1 : List.Sublist
        ((comments.filter (newCommentFilter S)).map TodoistComment.posted_at)
        (comments.map TodoistComment.posted_at) :=
      (List.filter_sublist _).map _
    have hperm : List.Perm
        ((sortByPostedAt (comments.filter (newCommentFilter S))).map TodoistComment.posted_at)
        ((comments.filter (newCommentFilter S)).map TodoistComment.posted_at) :=
      (List.mergeSort_perm _ _).map _
    have h2 : ((sortByPostedAt (comments.filter (newCommentFilter S))).map TodoistComment.posted_at).Nodup :=
      hperm.nodup_iff.mpr (hnd.sublist h1)
    have hnd2 : ((checkForNewComments claudeFails S comments).2.map TodoistComment.posted_at).Nodup :=
      h2.sublist (hpref.sublist.map _)
    have hand := ((List.pairwise_map).mpr hle).and hnd2
    exact hand.imp (fun hab => lt_of_le_of_ne hab.1 hab.2)
  · intro hf
    exact runComments_no_failure claudeFails hf _ S

/-- A comment posted late but fetched first. -/
def lateComment : TodoistComment :=
  { id := "cl", task_id := "123", content := "later", posted_at := 9,
    posted_uid := "u" }

/-- A comment posted early but fetched last. -/
def earlyComment : TodoistComment :=
  { id := "ce", task_id := "123", content := "earlier", posted_at := 2,
    posted_uid := "u" }

/-- Witness for C9 at a concrete out-of-order fetch. -/
theorem poll_comments_ascending_witness :
    ((checkForNewComments (fun _ => false) [] [lateComment, earlyComment]).2.map
      TodoistComment.posted_at).Sorted (· < ·) ∧
    (checkForNewComments (fun _ => false) [] [lateComment, earlyComment]).2 =
      sortByPostedAt ([lateComment, earlyComment].filter (newCommentFilter [])) :=
  ⟨(poll_comments_ascending (fun _ => false) [] [lateComment, earlyComment]).2.1
      (by decide),
   (poll_comments_ascending (fun _ => false) [] [lateComment, earlyComment]).2.2
      (fun _ => rfl)⟩

/-! ## Claim C2: at-most-once comment handling across poll passes -/

/-- When the processed set is below the eviction ceiling, inserting an id
is a plain FIFO append (the eviction branch is not taken). -/
theorem addProcessedComment_small (S : List String) (id : String)
    (h : S.length < MAX_PROCESSED_COMMENTS) :
    addProcessedComment S id = if S.contains id then S else S ++ [id] := by
  by_cases hc : S.contains id <;>
    simp only [addProcessedComment, hc, if_true, if_false, Bool.false_eq_true] <;>
    rw [if_neg (by simp; omega)]

/-- Under the eviction ceiling, the processed set only grows during the
loop: previously recorded ids stay recorded, and each invoked comment's id
is recorded in the resulting set (insertion happens at emission time,
before — and regardless of — the outcome of its processing). -/
theorem runComments_mem (f : String → Bool) :
    ∀ (l : List TodoistComment) (S : List String),
      S.length + l.length ≤ MAX_PROCESSED_COMMENTS →
      (∀ x, x ∈ S → x ∈ (runComments f S l).1) ∧
      (∀ d ∈ (runComments f S l).2, d.id ∈ (runComments f S l).1) := by
  intro l
  induction l with
  | nil => intro S _; constructor
           · intro x hx; simpa [runComments] using hx
           · intro d hd; simp [runComments] at hd
  | cons c cs ih =>
      intro S hsize
      have hlt : S.length < MAX_PROCESSED_COMMENTS := by
        simp at hsize; omega
      have hadd : addProcessedComment S c.id =
          if S.contains c.id then S else S ++ [c.id] :=
        addProcessedComment_small S c.id hlt
      have hmemS : ∀ x, x ∈ S → x ∈ addProcessedComment S c.id := by
        intro x hx
        rw [hadd]; split <;> simp [hx]
      have hmemc : c.id ∈ addProcessedComment S c.id := by
        rw [hadd]
        split
        · next hcon => simpa using hcon
        · simp
      have hsize' : (addProcessedComment S c.id).length + cs.length ≤
          MAX_PROCESSED_COMMENTS := by
        rw [hadd]
        split <;> simp at hsize ⊢ <;> omega
      simp only [runComments]
      split
      · constructor
        · intro x hx; exact hmemS x hx
        · intro d hd
          simp at hd
          subst hd
          exact hmemc
      · obtain ⟨iha, ihb⟩ := ih (addProcessedComment S c.id) hsize'
        constructor
        · intro x hx
          exact iha x (hmemS x hx)
        · intro d hd
          rcases List.mem_cons.mp hd with hd | hd
          · subst hd; exact iha d.id hmemc
          · exact ihb d hd

/-- If the failure pattern can only fail on the distinguished id `x`, and
`x` occurs exactly once among the input ids, then the loop invokes the
engine on it exactly once (even when that invocation fails). -/
theorem runComments_count (f : String → Bool) (x : String) :
    ∀ (l : List TodoistComment) (S : List String),
      (∀ d ∈ l, d.id ≠ x → f d.id = false) →
      (l.map TodoistComment.id).count x = 1 →
      ((runComments f S l).2.map TodoistComment.id).count x = 1 := by
  intro l
  induction l with
  | nil => intro S _ hcount; simp at hcount
  | cons c cs ih =>
      intro S hf hcount
      simp only [runComments]
      cases hfc : f c.id with
      | true =>
          have hcx : c.id = x := by
            by_contra hne
            have := hf c (List.mem_cons_self c cs) hne
            rw [this] at hfc
            exact Bool.false_ne_true hfc
          simp [hcx]
      | false =>
          simp only [Bool.false_eq_true, if_false]
          by_cases hcx : c.id = x
          · have h0 : (cs.map TodoistComment.id).count x = 0 := by
              rw [List.map_cons, hcx, List.count_cons_self] at hcount
              omega
            have hsub : List.Sublist
                ((runComments f (addProcessedComment S c.id) cs).2.map TodoistComment.id)
                (cs.map TodoistComment.id) :=
              (runComments_leading f cs (addProcessedComment S c.id)).sublist.map _
            have h0' : ((runComments f (addProcessedComment S c.id) cs).2.map
                TodoistComment.id).count x = 0 :=
              Nat.le_zero.mp (h0 ▸ hsub.count_le x)
            rw [List.map_cons, List.count_cons, h0']
            simp [hcx]
          · have hcount' : (cs.map TodoistComment.id).count x = 1 := by
              rw [List.map_cons, List.count_cons_of_ne (fun h => hcx h.symm)] at hcount
              exact hcount
            have := ih (addProcessedComment S c.id)
              (fun d hd hne => hf d (List.mem_cons_of_mem c hd) hne) hcount'
            simp [List.count_cons_of_ne (fun h => hcx h.symm), this]
/-- C2: for a comment fed through the poll adapter in two reconciliation
passes (the same comment fetched again in the second pass, or any second
fetch at all), exactly one processing invocation reaches the engine, and
the comment's id is in the handled-set right after the first pass even if
its own downstream processing failed — so a processing failure does not
cause the comment to be reconsidered on the next tick.  Hypotheses: the id
is not yet handled, the comment is in the first fetch, it carries no
reserved marker, the fetch has no duplicate ids, only the comment's own
processing may fail in pass one, and the handled-set stays below the
eviction ceiling during the pass. -/
theorem comment_handled_at_most_once
    (S : List String) (L1 L2 : List TodoistComment)
    (f1 f2 : String → Bool) (c : TodoistComment)
    (hS : c.id ∉ S)
    (hc1 : c ∈ L1)
    (hm1 : jsStartsWith c.content AI_INDICATOR = false)
    (hm2 : jsStartsWith c.content ERROR_PREFIX = false)
    (hnd : (L1.map TodoistComment.id).Nodup)
    (hf : ∀ d ∈ L1, d.id ≠ c.id → f1 d.id = false)
    (hsize : S.length + L1.length ≤ MAX_PROCESSED_COMMENTS) :
    c.id ∈ (checkForNewComments f1 S L1).1 ∧
    (((checkForNewComments f1 S L1).2 ++
      (checkForNewComments f2 (checkForNewComments f1 S L1).1 L2).2).map
       TodoistComment.id).count c.id = 1 := by
  have hpred : newCommentFilter S c = true := by
    simp [newCommentFilter, hm1, hm2, hS]
  have hcfilter : c ∈ L1.filter (newCommentFilter S) :=
    List.mem_filter.mpr ⟨hc1, hpred⟩
  have hcount1 : (L1.map TodoistComment.id).count c.id = 1 :=
    List.count_eq_one_of_mem hnd (List.mem_map_of_mem _ hc1)
  have hsubf : List.Sublist
      ((L1.filter (newCommentFilter S)).map TodoistComment.id)
      (L1.map TodoistComment.id) :=
    (List.filter_sublist _).map _
  have hcountf : ((L1.filter (newCommentFilter S)).map TodoistComment.id).count c.id = 1 := by
    have hle := hsubf.count_le c.id
    rw [hcount1] at hle
    have hge : 0 < ((L1.filter (newCommentFilter S)).map TodoistComment.id).count c.id :=
      List.count_pos_iff.mpr (List.mem_map_of_mem _ hcfilter)
    omega
  have hcounts : ((sortByPostedAt (L1.filter (newCommentFilter S))).map
      TodoistComment.id).count c.id = 1 := by
    have hperm : List.Perm
        ((sortByPostedAt (L1.filter (newCommentFilter S))).map TodoistComment.id)
        ((L1.filter (newCommentFilter S)).map TodoistComment.id) :=
      (List.mergeSort_perm _ _).map _
    rw [hperm.count_eq, hcountf]
  have hfs : ∀ d ∈ sortByPostedAt (L1.filter (newCommentFilter S)),
      d.id ≠ c.id → f1 d.id = false := by
    intro d hd hne
    have hd1 : d ∈ L1.filter (newCommentFilter S) := by
      simpa [sortByPostedAt] using hd
    exact hf d (List.mem_of_mem_filter hd1) hne
  have hsize' : S.length + (sortByPostedAt (L1.filter (newCommentFilter S))).length ≤
      MAX_PROCESSED_COMMENTS := by
    have h1 : (sortByPostedAt (L1.filter (newCommentFilter S))).length =
        (L1.filter (newCommentFilter S)).length := by
      simp [sortByPostedAt]
    have h2 := L1.length_filter_le (newCommentFilter S)
    omega
  have hinv1 : ((checkForNewComments f1 S L1).2.map TodoistComment.id).count c.id = 1 :=
    runComments_count f1 c.id _ S hfs hcounts
  have hmem1 : c.id ∈ (checkForNewComments f1 S L1).1 := by
    have hpos : 0 < ((checkForNewComments f1 S L1).2.map TodoistComment.id).count c.id := by
      omega
    obtain ⟨d, hd, hdid⟩ := List.mem_map.mp (List.count_pos_iff.mp hpos)
    have := (runComments_mem f1 _ S hsize').2 d hd
    rwa [hdid] at this
  refine ⟨hmem1, ?_⟩
  have hnone : ∀ d ∈ (checkForNewComments f2 (checkForNewComments f1 S L1).1 L2).2,
      d.id ≠ c.id := by
    intro d hd
    have hd1 : d ∈ sortByPostedAt (L2.filter (newCommentFilter (checkForNewComments f1 S L1).1)) :=
      (runComments_leading f2 _ _).sublist.mem hd
    have hd2 : d ∈ L2.filter (newCommentFilter (checkForNewComments f1 S L1).1) := by
      simpa [sortByPostedAt] using hd1
    have hp := List.of_mem_filter hd2
    intro hdc
    simp [newCommentFilter, hdc, hmem1] at hp
  have hzero : ((checkForNewComments f2 (checkForNewComments f1 S L1).1 L2).2.map
      TodoistComment.id).count c.id = 0 := by
    rw [List.count_eq_zero]
    intro hmem
    obtain ⟨d, hd, hdid⟩ := List.mem_map.mp hmem
    exact hnone d hd hdid
  rw [List.map_append, List.count_append, hinv1, hzero]

/-- Witness for C2: the same comment fetched in both passes, with its own
downstream processing failing in pass one, is invoked exactly once and is
recorded as handled. -/
theorem comment_handled_at_most_once_witness :
    "ce" ∈ (checkForNewComments (fun _ => true) [] [earlyComment]).1 ∧
    (((checkForNewComments (fun _ => true) [] [earlyComment]).2 ++
      (checkForNewComments (fun _ => false)
        (checkForNewComments (fun _ => true) [] [earlyComment]).1
        [earlyComment]).2).map TodoistComment.id).count "ce" = 1 :=
  comment_handled_at_most_once [] [earlyComment] [earlyComment]
    (fun _ => true) (fun _ => false) earlyComment
    (by simp) (List.Mem.head _) (by decide) (by decide) (by decide)
    (fun d hd hne => by
      simp at hd
      subst hd
      exact absurd rfl hne)
    (by decide)

/-! ## Claim C1: at-most-once task initialization across push and poll -/

/-- Whether the collection holds a conversation with at least one message
for the given task id ("task already initialized" in the spec's terms). -/
def hasNonEmptyConv (store : Store) (taskId : String) : Bool :=
  match store taskId with
  | some conv => !conv.messages.isEmpty
  | none => false

/-- Appending a message never yields an empty message list. -/
theorem addMessage_not_isEmpty (c : Conversation) (r : Role) (t : String) (M : Nat) :
    (addMessage c r t M).messages.isEmpty = false := by
  unfold addMessage
  dsimp only
  split <;> simp

/-- The anchor is synthesized exactly when no non-empty conversation is
stored. -/
theorem anchorCreated_eq (store : Store) (id : String) (now : Nat) :
    anchorCreated store id now = if hasNonEmptyConv store id then 0 else 1 := by
  unfold anchorCreated hasNonEmptyConv Store.load
  cases h : store id with
  | none => simp [createEmpty]
  | some conv =>
      cases he : conv.messages.isEmpty <;> simp [he]

/-- A successful `processNewTask` always leaves a non-empty conversation
stored for the task (anchor or prior history, plus the assistant reply). -/
theorem processNewTask_ok_nonempty (store : Store) (task : TodoistTask)
    (r : String) (now : Nat) :
    hasNonEmptyConv (processNewTask store task (.ok r) now).1 task.id = true := by
  unfold processNewTask hasNonEmptyConv Store.save
  dsimp only
  simp [addMessage_not_isEmpty]

/-- A non-empty stored conversation in particular exists. -/
theorem existsConv_of_nonempty (store : Store) (id : String)
    (h : hasNonEmptyConv store id = true) : store.existsConv id = true := by
  unfold hasNonEmptyConv at h
  unfold Store.existsConv
  cases hs : store id with
  | none => rw [hs] at h; simp at h
  | some conv => simp

/-- Once a conversation exists for the task, a poll tick always takes the
comment-check branch: it can neither re-run `processNewTask` nor overwrite
the conversation with an empty one. -/
theorem processTask_already (lastPollTime : Nat) (task : TodoistTask) (now : Nat) :
    processTask true lastPollTime task now = .checkComments := by
  simp [processTask]

/-- The anchor-count invariant: the number of anchor creations so far is 1
exactly when a non-empty conversation is stored, 0 otherwise. -/
def anchorInv (task : TodoistTask) (s : AgentState) : Prop :=
  s.anchorCount = if hasNonEmptyConv s.store task.id then 1 else 0

/-- Every serialized step preserves the anchor-count invariant. -/
theorem stepEvent_inv (task : TodoistTask) (s : AgentState) (e : AgentEvent)
    (hinv : anchorInv task s) : anchorInv task (stepEvent task s e) := by
  unfold anchorInv at *
  cases e with
  | pushCreated r now =>
      simp only [stepEvent, processNewTask_ok_nonempty, if_true, anchorCreated_eq]
      rw [hinv]
      cases h : hasNonEmptyConv s.store task.id <;> simp
  | pushRelabeled r now =>
      by_cases hex : s.store.existsConv task.id = true
      · simpa [stepEvent, hex] using hinv
      · have hexf : s.store.existsConv task.id = false := by
          cases hb : s.store.existsConv task.id
          · rfl
          · exact absurd hb hex
        have hne : hasNonEmptyConv s.store task.id = false := by
          cases hb : hasNonEmptyConv s.store task.id
          · rfl
          · exact absurd (existsConv_of_nonempty _ _ hb) hex
        simp only [stepEvent, hexf, Bool.false_eq_true, if_false,
          processNewTask_ok_nonempty, if_true, anchorCreated_eq, hne]
        rw [hinv, hne]
        simp
  | pollTick t r now =>
      cases hpt : processTask (s.store.existsConv task.id) s.lastPollTime task now with
      | processNew =>
          simp only [stepEvent, hpt, processNewTask_ok_nonempty, if_true,
            anchorCreated_eq]
          rw [hinv]
          cases h : hasNonEmptyConv s.store task.id <;> simp
      | markSeen conv =>
          have hinfo : s.store.existsConv task.id = false ∧ conv.messages = [] := by
            unfold processTask at hpt
            dsimp only at hpt
            split at hpt
            · simp at hpt
            · split at hpt
              · next hcond =>
                  simp only [PollAction.markSeen.injEq] at hpt
                  constructor
                  · rcases Bool.and_eq_true .. |>.mp hcond with ⟨-, h2⟩
                    cases hb : s.store.existsConv task.id
                    · rfl
                    · rw [hb] at h2; simp at h2
                  · rw [← hpt]
              · simp at hpt
          have hne : hasNonEmptyConv (s.store.save task.id conv now) task.id = false := by
            unfold hasNonEmptyConv Store.save
            simp [hinfo.2]
          have hne0 : hasNonEmptyConv s.store task.id = false := by
            cases hb : hasNonEmptyConv s.store task.id
            · rfl
            · have := existsConv_of_nonempty _ _ hb
              rw [hinfo.1] at this
              simp at this
          simp only [stepEvent, hpt, hne]
          rw [hinv, hne0]
      | checkComments =>
          simp only [stepEvent, hpt]
          exact hinv

/-- Once a non-empty conversation is stored for the task, every further
step keeps it non-empty. -/
theorem stepEvent_nonempty_mono (task : TodoistTask) (s : AgentState) (e : AgentEvent)
    (h : hasNonEmptyConv s.store task.id = true) :
    hasNonEmptyConv (stepEvent task s e).store task.id = true := by
  cases e with
  | pushCreated r now => exact processNewTask_ok_nonempty s.store task r now
  | pushRelabeled r now =>
      simp [stepEvent, existsConv_of_nonempty _ _ h]
      exact h
  | pollTick t r now =>
      simp only [stepEvent, existsConv_of_nonempty _ _ h, processTask_already]
      exact h

/-- After any interleaving containing a `TaskCreated` push (or starting
from an already-initialized state), the stored conversation is non-empty. -/
theorem foldl_nonempty (task : TodoistTask) :
    ∀ (es : List AgentEvent) (s : AgentState),
      ((∃ r n, AgentEvent.pushCreated r n ∈ es) ∨
        hasNonEmptyConv s.store task.id = true) →
      hasNonEmptyConv ((es.foldl (stepEvent task) s)).store task.id = true := by
  intro es
  induction es with
  | nil =>
      intro s h
      rcases h with ⟨r, n, hmem⟩ | h
      · simp at hmem
      · simpa using h
  | cons e es ih =>
      intro s h
      rw [List.foldl_cons]
      apply ih
      rcases h with ⟨r, n, hmem⟩ | h
      · rcases List.mem_cons.mp hmem with hmem | hmem
        · right
          rw [← hmem]
          exact processNewTask_ok_nonempty s.store task r n
        · exact Or.inl ⟨r, n, hmem⟩
      · exact Or.inr (stepEvent_nonempty_mono task s e h)

/-- The anchor-count invariant holds along any interleaving. -/
theorem foldl_inv (task : TodoistTask) :
    ∀ (es : List AgentEvent) (s : AgentState),
      anchorInv task s → anchorInv task (es.foldl (stepEvent task) s) := by
  intro es
  induction es with
  | nil => intro s h; simpa using h
  | cons e es ih =>
      intro s h
      rw [List.foldl_cons]
      exact ih _ (stepEvent_inv task s e h)

/-- C1: across any interleaving of push-delivered `TaskCreated`
(`item:added`) and `TaskRelabeled` (`item:updated`) events and poll-tick
discoveries that all observe the task's trigger label, the anchor message
is created at most once; and if the interleaving contains a `TaskCreated`
push, it is created exactly once and exactly one conversation exists for
the task id afterwards. -/
theorem task_init_at_most_once (task : TodoistTask) (es : List AgentEvent) :
    (runEvents task es).anchorCount ≤ 1 ∧
    ((∃ r n, AgentEvent.pushCreated r n ∈ es) →
      (runEvents task es).anchorCount = 1 ∧
      (runEvents task es).store.existsConv task.id = true) := by
  have hinv0 : anchorInv task
      { store := fun _ => none, lastPollTime := 0, anchorCount := 0 } := by
    unfold anchorInv hasNonEmptyConv
    simp
  have hinv := foldl_inv task es _ hinv0
  unfold anchorInv at hinv
  constructor
  · unfold runEvents
    rw [hinv]
    split <;> omega
  · intro hex
    have hne := foldl_nonempty task es
      { store := fun _ => none, lastPollTime := 0, anchorCount := 0 } (Or.inl hex)
    constructor
    · unfold runEvents
      rw [hinv, hne]
      rfl
    · exact existsConv_of_nonempty _ _ hne

/-- Witness for C1 at a concrete interleaving of a poll tick, a
`TaskCreated` push, a `TaskRelabeled` push and another poll tick. -/
theorem task_init_at_most_once_witness :
    (runEvents sampleTask
      [AgentEvent.pollTick 4 "ok" 4, AgentEvent.pushCreated "ok" 5,
       AgentEvent.pushRelabeled "ok" 6, AgentEvent.pollTick 7 "ok" 7]).anchorCount = 1 ∧
    (runEvents sampleTask
      [AgentEvent.pollTick 4 "ok" 4, AgentEvent.pushCreated "ok" 5,
       AgentEvent.pushRelabeled "ok" 6, AgentEvent.pollTick 7 "ok" 7]).store.existsConv
      sampleTask.id = true :=
  (task_init_at_most_once sampleTask
    [AgentEvent.pollTick 4 "ok" 4, AgentEvent.pushCreated "ok" 5,
     AgentEvent.pushRelabeled "ok" 6, AgentEvent.pollTick 7 "ok" 7]).2
    ⟨"ok", 5, List.Mem.tail _ (List.Mem.head _)⟩

/-! ## Claim C4: the pruning invariant of addMessage -/

/-- Closed form of the conversation history kept after repeated appends:
everything while within the bound, otherwise the first (anchor) message
plus the last `M - 1` messages. -/
def compress (M : Nat) (h : List Message) : List Message :=
  if h.length ≤ M then h else h.headI :: h.drop (h.length - (M - 1))

/-- For bounds `M ≥ 2` a single `addMessage` computes `compress` of the
appended history (for `M = 1` it does not: `slice(-0)` keeps the whole
array, see the counterexample below). -/
theorem addMessage_messages_eq (c : Conversation) (r : Role) (t : String)
    (M : Nat) (hM : 2 ≤ M) :
    (addMessage c r t M).messages =
      compress M (c.messages ++ [{ role := r, content := t }]) := by
  unfold addMessage compress
  dsimp only
  split
  · rfl
  · unfold jsSlice
    rw [if_pos (by omega)]
    dsimp only
    simp only [List.length_append, List.length_cons, List.length_nil]
    congr 2
    omega

/-- Compressing, appending one message and compressing again is the same
as compressing the whole history (for `M ≥ 2`). -/
theorem compress_append (M : Nat) (hM : 2 ≤ M) (h : List Message) (m : Message) :
    compress M (compress M h ++ [m]) = compress M (h ++ [m]) := by
  by_cases hlen : h.length ≤ M
  · rw [show compress M h = h from by simp [compress, hlen]]
  · have hne : h ≠ [] := by
      intro h0
      rw [h0] at hlen
      simp at hlen
    have hcomp : compress M h = h.headI :: h.drop (h.length - (M - 1)) := by
      simp [compress, hlen]
    have hdlen : (h.drop (h.length - (M - 1))).length = M - 1 := by
      rw [List.length_drop]
      omega
    rw [hcomp]
    have hlenL : ((h.headI :: h.drop (h.length - (M - 1))) ++ [m]).length = M + 1 := by
      simp only [List.cons_append, List.length_cons, List.length_append,
        List.length_nil, hdlen]
      omega
    have hlenR : (h ++ [m]).length = h.length + 1 := by simp
    have hcondL : ¬ ((h.headI :: h.drop (h.length - (M - 1))) ++ [m]).length ≤ M := by
      rw [hlenL]; omega
    have hcondR : ¬ (h ++ [m]).length ≤ M := by
      rw [hlenR]; omega
    unfold compress
    rw [if_neg hcondL, if_neg hcondR, hlenL, hlenR]
    have hheadR : (h ++ [m]).headI = h.headI := by
      cases h with
      | nil => exact absurd rfl hne
      | cons a t => rfl
    have hheadL : ((h.headI :: h.drop (h.length - (M - 1))) ++ [m]).headI = h.headI := rfl
    rw [hheadL, hheadR]
    congr 1
    rw [List.cons_append]
    have h2 : M + 1 - (M - 1) = 2 := by omega
    rw [h2]
    show (h.drop (h.length - (M - 1)) ++ [m]).drop 1 =
      (h ++ [m]).drop (h.length + 1 - (M - 1))
    rw [List.drop_append_of_le_length (by rw [hdlen]; omega),
        List.drop_append_of_le_length (by omega)]
    rw [List.drop_drop]
    have h3 : h.length - (M - 1) + 1 = h.length + 1 - (M - 1) := by omega
    rw [h3]

/-- Appending a whole sequence of messages to an empty conversation yields
the compressed sequence (for `M ≥ 2`). -/
theorem appendAll_messages (M : Nat) (hM : 2 ≤ M) (conv : Conversation)
    (hc : conv.messages = []) (ms : List (Role × String)) :
    (appendAll conv ms M).messages = compress M (ms.map toMsg) := by
  induction ms using List.reverseRecOn with
  | nil => simp [appendAll, hc, compress]
  | append_singleton ms p ih =>
      have hstep : appendAll conv (ms ++ [p]) M =
          addMessage (appendAll conv ms M) p.1 p.2 M := by
        simp [appendAll, List.foldl_append]
      rw [hstep, addMessage_messages_eq _ _ _ _ hM, ih, List.map_append]
      exact compress_append M hM _ _

/-- C4 counterexample: the claim quantifies over every bound `maxMessages`,
but for `maxMessages = 1` (a value the config validation accepts, since
`MAX_MESSAGES` only requires a minimum of 1) the pruning branch computes
`messages.slice(-0)`, which in JavaScript is `slice(0)` — the whole array —
so appending 2 > 1 messages yields a conversation of length 3, not 1. -/
theorem pruning_claim_counterexample :
    1 < ([(Role.user, "m0"), (Role.assistant, "m1")] : List (Role × String)).length ∧
    (appendAll convEmpty [(Role.user, "m0"), (Role.assistant, "m1")] 1).messages.length = 3 ∧
    (appendAll convEmpty [(Role.user, "m0"), (Role.assistant, "m1")] 1).messages.length ≠ 1 := by
  have h3 : (appendAll convEmpty [(Role.user, "m0"), (Role.assistant, "m1")] 1).messages.length = 3 := by
    simp only [appendAll, List.foldl]
    rfl
  exact ⟨by decide, h3, by rw [h3]; decide⟩

/-- C4 (amended with the bound `maxMessages ≥ 2` the counterexample
forces): for every conversation starting with no messages, every bound
`M ≥ 2` and every sequence of `N > M` appended messages, the result has
length exactly `M`, its first element is the first appended message and
its last element is the most recently appended message. -/
theorem pruning_invariant_amended (conv : Conversation) (hc : conv.messages = [])
    (ms : List (Role × String)) (M : Nat) (hM : 2 ≤ M) (hN : M < ms.length) :
    (appendAll conv ms M).messages.length = M ∧
    (appendAll conv ms M).messages.head? = (ms.map toMsg).head? ∧
    (appendAll conv ms M).messages.getLast? = (ms.map toMsg).getLast? := by
  have hfull : (ms.map toMsg).length = ms.length := List.length_map _ _
  have hcond : ¬ (ms.map toMsg).length ≤ M := by omega
  have hcomp : compress M (ms.map toMsg) =
      (ms.map toMsg).headI ::
        (ms.map toMsg).drop ((ms.map toMsg).length - (M - 1)) := by
    unfold compress
    rw [if_neg hcond]
  have hmsne : ms.map toMsg ≠ [] := by
    intro h0
    rw [h0] at hfull
    simp at hfull
    omega
  have hdlen : ((ms.map toMsg).drop ((ms.map toMsg).length - (M - 1))).length = M - 1 := by
    rw [List.length_drop]
    omega
  have hdne : (ms.map toMsg).drop ((ms.map toMsg).length - (M - 1)) ≠ [] := by
    intro h0
    rw [h0] at hdlen
    simp at hdlen
    omega
  rw [appendAll_messages M hM conv hc ms, hcomp]
  refine ⟨?_, ?_, ?_⟩
  · simp only [List.length_cons, hdlen]
    omega
  · cases hms : ms.map toMsg with
    | nil => exact absurd hms hmsne
    | cons a t => simp [hms]
  · rw [List.getLast?_cons]
    obtain ⟨b, hb⟩ : ∃ b,
        ((ms.map toMsg).drop ((ms.map toMsg).length - (M - 1))).getLast? = some b := by
      cases hlast : ((ms.map toMsg).drop ((ms.map toMsg).length - (M - 1))).getLast? with
      | none => exact absurd (List.getLast?_eq_none_iff.mp hlast) hdne
      | some b => exact ⟨b, rfl⟩
    rw [hb]
    conv_rhs =>
      rw [← List.take_append_drop ((ms.map toMsg).length - (M - 1)) (ms.map toMsg)]
    rw [List.getLast?_append, hb]
    rfl

/-- The spec's concrete pruning scenario: 25 alternating user/assistant
messages. -/
def msgs25 : List (Role × String) :=
  (List.range 25).map
    (fun i => (if i % 2 = 0 then Role.user else Role.assistant, "msg" ++ toString i))

/-- Witness for C4 at the spec's concrete instance: 25 appended messages
with bound 20 yield length 20 with first element `msg0` and last element
`msg24`. -/
theorem pruning_invariant_amended_witness :
    (appendAll convEmpty msgs25 20).messages.length = 20 ∧
    (appendAll convEmpty msgs25 20).messages.head? =
      some { role := Role.user, content := "msg0" } ∧
    (appendAll convEmpty msgs25 20).messages.getLast? =
      some { role := Role.user, content := "msg24" } := by
  obtain ⟨h1, h2, h3⟩ :=
    pruning_invariant_amended convEmpty rfl msgs25 20 (by decide) (by decide)
  exact ⟨h1, by rw [h2]; decide, by rw [h3]; decide⟩

end TodoistAgent
